import Mathlib

/-!
Verification development for the Sushiswap-v2 pools tag module
(`src/main.mts`).  The TypeScript source is shallowly embedded: JavaScript
strings are modelled as Lean `String`s (sequences of characters), string
primitives that the source uses (`trim`, `substring`, `replace`, the
`/^\d+$/` regex, `Number` on digit strings, `encodeURIComponent`) are given
explicit executable definitions over the character list, asynchronous
network calls are replaced by explicit oracle parameters (the indexed block
number and the sequence of pages the GraphQL endpoint would return), and
thrown `Error`s become an explicit error type classified by throw site.
-/

namespace SushiV2

/-! ## JavaScript string primitives -/

/-- Model of `String.prototype.trim`: drop whitespace from both ends. -/
def jsTrim (s : String) : String :=
  String.mk (((s.data.dropWhile Char.isWhitespace).reverse.dropWhile
      Char.isWhitespace).reverse)

/-- Model of the regex test `/^\d+$/.test s`: `s` is non-empty and consists
solely of decimal digits. -/
def digitStringB (l : List Char) : Bool :=
  !l.isEmpty && l.all Char.isDigit

/-- Model of JavaScript `Number(s)` on a string of decimal digits (the only
context in which the source converts): the denoted natural number.  (For the
chain ids involved, far below `2^53`, the IEEE-754 conversion is exact.) -/
def digitsToNat (l : List Char) : Nat :=
  l.foldl (fun n c => n * 10 + (c.toNat - 48)) 0

/-- Model of `text.substring(0, n)`: the first `n` characters. -/
def jsSubstring0 (text : String) (n : Nat) : String :=
  String.mk (text.data.take n)

/-- Replace the first occurrence of `pattern` in the list (JavaScript
`String.prototype.replace` with a string pattern replaces only the first
occurrence). -/
def replaceFirstAux (pattern replacement : List Char) : List Char → List Char
  | [] => []
  | c :: rest =>
    if pattern.isPrefixOf (c :: rest) then
      replacement ++ (c :: rest).drop pattern.length
    else
      c :: replaceFirstAux pattern replacement rest

/-- Model of `s.replace(pattern, replacement)` with a string pattern. -/
def jsReplaceFirst (s pattern replacement : String) : String :=
  String.mk (replaceFirstAux pattern.data replacement.data s.data)

/-- Does `pattern` occur as a contiguous run starting at some position? -/
def isInfixAux (pattern : List Char) : List Char → Bool
  | [] => pattern.isEmpty
  | c :: rest => pattern.isPrefixOf (c :: rest) || isInfixAux pattern rest

/-- Model of `s.includes(pattern)`: contiguous substring containment. -/
def containsStr (s pattern : String) : Bool :=
  isInfixAux pattern.data s.data

/-- The apostrophe character U+0027, used in the fixed note text. -/
def apostrophe : String :=
  String.singleton (Char.ofNat 39)

/-- Uppercase hexadecimal digit for `n < 16`. -/
def hexDigitUpper (n : Nat) : Char :=
  if n < 10 then Char.ofNat (48 + n) else Char.ofNat (55 + n)

/-- The `%XX` escape of one byte. -/
def percentByte (b : Nat) : List Char :=
  ['%', hexDigitUpper (b / 16), hexDigitUpper (b % 16)]

/-- UTF-8 bytes of one character (code point). -/
def utf8BytesOfChar (c : Char) : List Nat :=
  let n := c.toNat
  if n < 128 then [n]
  else if n < 2048 then [192 + n / 64, 128 + n % 64]
  else if n < 65536 then [224 + n / 4096, 128 + (n / 64) % 64, 128 + n % 64]
  else [240 + n / 262144, 128 + (n / 4096) % 64, 128 + (n / 64) % 64, 128 + n % 64]

/-- Characters `encodeURIComponent` leaves unescaped besides alphanumerics:
`- _ . ! ~ * ' ( )`. -/
def uriMarkChars : List Char :=
  ['-', '_', '.', '!', '~', '*', Char.ofNat 39, '(', ')']

/-- Model of `encodeURIComponent`: percent-escape every character outside the
unreserved set, byte by byte of its UTF-8 encoding, with uppercase hex. -/
def encodeURIComponentModel (s : String) : String :=
  String.mk (s.data.foldr
    (fun c acc =>
      (if c.isAlphanum || c ∈ uriMarkChars then [c]
       else (utf8BytesOfChar c).foldr (fun b l => percentByte b ++ l) []) ++ acc)
    [])

/-! ## Data model (`LiquidityPool`, `ContractTag`, responses) -/

/-- An input- or output-token descriptor (`{ id, symbol, name }`).  The
interface declares `symbol` and `name` as strings, but the code defends
against their absence (`lpToken.symbol?.trim() ?? ""`), so they are modelled
as optional. -/
structure TokenInfo where
  id : String
  symbol : Option String
  name : Option String
deriving DecidableEq

/-- A raw pool record as returned by the pools query. -/
structure LiquidityPool where
  id : String
  name : String
  symbol : Option String
  inputTokens : Option (List TokenInfo)
  outputToken : Option TokenInfo
deriving DecidableEq

/-- An output contract tag; the five string fields of the registry schema
(`Contract Address`, `Public Name Tag`, `Project Name`, `UI/Website Link`,
`Public Note`). -/
structure ContractTag where
  contractAddress : String
  publicNameTag : String
  projectName : String
  uiWebsiteLink : String
  publicNote : String
deriving DecidableEq

/-- The thrown `Error`s of the module, classified by throw site following the
taxonomy of the specification. -/
inductive TagErr where
  | validationError (msg : String)
  | configurationError (msg : String)
  | queryError (msg : String)
  | paginationStallError (msg : String)
  | fetchUnavailable
deriving DecidableEq

/-! ## Record transformer (`truncateString`, `transformPoolsToTags`) -/

/-- Function `truncateString` from the source: if `text` is longer than `maxLength`,
keep the first `maxLength - 3` characters and append `"..."`. -/
def truncateString (text : String) (maxLength : Nat) : String :=
  if maxLength < text.length then
    jsSubstring0 text (maxLength - 3) ++ "..."
  else
    text

/-- The note text `Sushi's <symbol> (<name>) pool contract.` (the apostrophe
written via `apostrophe`). -/
def publicNoteFor (lpSymbol lpName : String) : String :=
  "Sushi" ++ apostrophe ++ "s " ++ lpSymbol ++ " (" ++ lpName ++ ") pool contract."

/-- One tag as pushed by the loop body of `transformPoolsToTags`. -/
def mkTag (chainId : String) (lpToken : TokenInfo) (lpSymbol lpName : String) :
    ContractTag :=
  { contractAddress := "eip155:" ++ chainId ++ ":" ++ lpToken.id
    publicNameTag := truncateString (lpSymbol ++ " Pool") 45
    projectName := "Sushi"
    uiWebsiteLink := "https://www.sushi.com/"
    publicNote := publicNoteFor lpSymbol lpName }

/-- The loop of `transformPoolsToTags`, with the `seen` set made an explicit
list parameter.  A record is skipped when it has no output token, when the
output-token id is empty or already seen, or (after marking the id as seen)
when the trimmed symbol is empty. -/
def transformGo (chainId : String) : List LiquidityPool → List String → List ContractTag
  | [], _ => []
  | pool :: rest, seen =>
    match pool.outputToken with
    | none => transformGo chainId rest seen
    | some lpToken =>
      if lpToken.id = "" ∨ lpToken.id ∈ seen then
        transformGo chainId rest seen
      else
        let lpSymbol := (lpToken.symbol.map jsTrim).getD ""
        let lpName := (lpToken.name.map jsTrim).getD ""
        if lpSymbol = "" then
          transformGo chainId rest (lpToken.id :: seen)
        else
          mkTag chainId lpToken lpSymbol lpName ::
            transformGo chainId rest (lpToken.id :: seen)

/-- Function `transformPoolsToTags` from the source. -/
def transformPoolsToTags (chainId : String) (pools : List LiquidityPool) :
    List ContractTag :=
  transformGo chainId pools []

/-- The `seen` set after processing a list of pools, mirroring `transformGo`. -/
def seenAfter : List LiquidityPool → List String → List String
  | [], seen => seen
  | pool :: rest, seen =>
    match pool.outputToken with
    | none => seenAfter rest seen
    | some lpToken =>
      if lpToken.id = "" ∨ lpToken.id ∈ seen then
        seenAfter rest seen
      else
        seenAfter rest (lpToken.id :: seen)

/-! ## Page fetcher (`fetchPools` response handling) -/

/-- Shape of the `data` field of a pools response; `liquidityPools` optional
so that a well-formed response lacking the field can be expressed. -/
structure GraphQLDataShape where
  liquidityPools : Option (List LiquidityPool)
deriving DecidableEq

/-- Shape of a parsed pools response `{ data?, errors? }` (transport success
already assumed; `errors`, when present, is the list of error messages). -/
structure GraphQLResponseShape where
  dataField : Option GraphQLDataShape
  errors : Option (List String)
deriving DecidableEq

/-- Response handling of `fetchPools` after a successful HTTP exchange: a
present `errors` field (even an empty list, which is truthy in JavaScript)
aborts with the GraphQL query error; otherwise
`result.data?.liquidityPools ?? []`. -/
def fetchPoolsResult (r : GraphQLResponseShape) : Except TagErr (List LiquidityPool) :=
  match r.errors with
  | some _ => .error (.queryError "GraphQL error from pools subgraph.")
  | none => .ok ((r.dataField.bind (fun d => d.liquidityPools)).getD [])

/-! ## Pagination driver (the `while (isMore)` loop of `returnTags`) -/

/-- Outcome of the pagination loop: normal completion with the accumulated
records, the stall error, or (a model artifact) exhaustion of the supplied
page sequence while the loop still wanted another page. -/
inductive PagingOutcome where
  | ok (pools : List LiquidityPool)
  | stall
  | outOfPages
deriving DecidableEq

/-- The value `page[page.length - 1].id`: the identifier of the last record of a page
(empty for an empty page; the loop only reads it when the page has exactly
1000 records). -/
def lastRecordId (page : List LiquidityPool) : String :=
  match page.getLast? with
  | some p => p.id
  | none => ""

/-- The pagination loop of `returnTags`, with the successive pages delivered
by `fetchPools` made an explicit list: each iteration consumes one page,
appends it to the accumulator, continues exactly when the page has 1000
records, and before advancing checks that the new cursor is non-empty and
differs from both the current (`lastId`) and the previous (`prevLastId`)
cursor, stalling otherwise. -/
def runPagination :
    List (List LiquidityPool) → String → String → List LiquidityPool → PagingOutcome
  | [], _, _, _ => .outOfPages
  | page :: rest, lastId, prevLastId, acc =>
    if page.length = 1000 then
      if lastRecordId page = "" ∨ lastRecordId page = lastId ∨
          lastRecordId page = prevLastId then
        .stall
      else
        runPagination rest (lastRecordId page) lastId (acc ++ page)
    else
      .ok (acc ++ page)

/-- Step lemma: a full page whose last record id fails the advancement check
stalls. -/
lemma runPagination_cons_stall (page : List LiquidityPool) (rest : List (List LiquidityPool))
    (lastId prevLastId : String) (acc : List LiquidityPool)
    (hfull : page.length = 1000)
    (h : lastRecordId page = "" ∨ lastRecordId page = lastId ∨
      lastRecordId page = prevLastId) :
    runPagination (page :: rest) lastId prevLastId acc = .stall := by
  simp only [runPagination, if_pos hfull, if_pos h]

/-- Step lemma: a full page whose last record id passes the advancement check
continues with the advanced cursors and the extended accumulator. -/
lemma runPagination_cons_continue (page : List LiquidityPool) (rest : List (List LiquidityPool))
    (lastId prevLastId : String) (acc : List LiquidityPool)
    (hfull : page.length = 1000)
    (h : ¬ (lastRecordId page = "" ∨ lastRecordId page = lastId ∨
      lastRecordId page = prevLastId)) :
    runPagination (page :: rest) lastId prevLastId acc
      = runPagination rest (lastRecordId page) lastId (acc ++ page) := by
  simp only [runPagination, if_pos hfull, if_neg h]

/-- Step lemma: a page that is not full ends the loop with the extended
accumulator. -/
lemma runPagination_cons_done (page : List LiquidityPool) (rest : List (List LiquidityPool))
    (lastId prevLastId : String) (acc : List LiquidityPool)
    (hfull : page.length ≠ 1000) :
    runPagination (page :: rest) lastId prevLastId acc = .ok (acc ++ page) := by
  simp only [runPagination, if_neg hfull]

/-- The last record id of a constant page. -/
lemma lastRecordId_replicate (n : Nat) (p : LiquidityPool) (h : n ≠ 0) :
    lastRecordId (List.replicate n p) = p.id := by
  unfold lastRecordId
  rw [List.getLast?_replicate]
  simp [h]

/-- The sentinel initial cursor: the minimum-valued (all-zero) address. -/
def zeroAddress : String :=
  "0x0000000000000000000000000000000000000000"

/-! ## Entry point (`returnTags`) -/

/-- The configuration table `SUBGRAPH_URLS`, keyed by decimal chain id. -/
def SUBGRAPH_URLS : String → Option String
  | "56" => some "https://gateway.thegraph.com/api/[api-key]/deployments/id/QmPi9QJjaPfoTEwfNMiuqoZmTc1RGFi3DeZy4UERDDqSJn"
  | "137" => some "https://gateway.thegraph.com/api/[api-key]/deployments/id/Qmc3gbKAd1eemQbaTvY93S2FpuPEipGaVKCQ97pBkXgtyN"
  | "250" => some "https://gateway.thegraph.com/api/[api-key]/deployments/id/QmZ3Zs57Bt9njPji3Ty6A9761hwQaHYYGMCjs5f7oiidxz"
  | "1285" => some "https://gateway.thegraph.com/api/[api-key]/deployments/id/QmZw2kXL8tt6FoNeo4qLSN3rbe9tkWtGxDtBV3iWJMEkf7"
  | _ => none

/-- The supported chain ids `[56, 137, 250, 1285]`. -/
def supportedChains : List Nat := [56, 137, 250, 1285]

/-- The validation error message, echoing the caller-supplied chain id. -/
def unsupportedChainMsg (originalChainId : String) : String :=
  "Unsupported Chain ID: " ++ originalChainId ++
    ". Only 56 (BNB Chain), 137 (Polygon), 250 (Fantom), and 1285 (Moonriver) are currently supported in this module."

/-- The configuration error message, echoing the caller-supplied chain id. -/
def noSubgraphMsg (originalChainId : String) : String :=
  "Subgraph URL not configured for Chain ID: " ++ originalChainId ++
    ". Please provide the official Messari Sushiswap subgraph URL."

/-- The endpoint actually used: the configured template with the first
occurrence of `[api-key]` replaced by the URI-encoded credential. -/
def resolvedSubgraphUrl (chainKey apiKey : String) : Option String :=
  (SUBGRAPH_URLS chainKey).map
    (fun t => jsReplaceFirst t "[api-key]" (encodeURIComponentModel apiKey))

/-- The resolved endpoint exists, is non-empty and contains no unresolved
`PLACEHOLDER` (the configuration check of `returnTags`). -/
def urlConfigOk (chainKey apiKey : String) : Bool :=
  match resolvedSubgraphUrl chainKey apiKey with
  | none => false
  | some url => !(url == "") && !(containsStr url "PLACEHOLDER")

/-- Method `TagService.returnTags`, with the two network interactions replaced by
oracles: the pinned block number returned by the metadata query (unused
beyond being forwarded to the page queries) and the sequence of pages that
the pools queries return.  Validation faithfully mirrors the source: trim,
`/^\d+$/` test, conversion through `Number` (always an integer on a digit
string), membership in the supported set, non-blank credential, endpoint
resolution with the placeholder check, then pagination and transformation
keyed by the canonical decimal chain id `String(chainIdNum)`. -/
def returnTagsModel (chainId apiKey : String) (_blockNumber : Nat)
    (pages : List (List LiquidityPool)) : Except TagErr (List ContractTag) :=
  let originalChainId := chainId
  let trimmedChainId := jsTrim chainId
  if digitStringB trimmedChainId.data = false then
    .error (.validationError (unsupportedChainMsg originalChainId))
  else
    let chainIdNum := digitsToNat trimmedChainId.data
    if ¬ chainIdNum ∈ supportedChains then
      .error (.validationError (unsupportedChainMsg originalChainId))
    else if (jsTrim apiKey).length = 0 then
      .error (.validationError "Missing API key. A The Graph gateway API key is required.")
    else
      let chainKey := Nat.repr chainIdNum
      match resolvedSubgraphUrl chainKey apiKey with
      | none => .error (.configurationError (noSubgraphMsg originalChainId))
      | some subgraphUrl =>
        if subgraphUrl = "" ∨ containsStr subgraphUrl "PLACEHOLDER" = true then
          .error (.configurationError (noSubgraphMsg originalChainId))
        else
          match runPagination pages zeroAddress "" [] with
          | .outOfPages => .error .fetchUnavailable
          | .stall => .error (.paginationStallError
              "Pagination cursor (pools) did not advance; aborting.")
          | .ok allPools => .ok (transformPoolsToTags (Nat.repr chainIdNum) allPools)

/-! ## General string lemmas -/

lemma strData_append (a b : String) : (a ++ b).data = a.data ++ b.data := by
  cases a
  cases b
  rfl

lemma strLength_append (a b : String) : (a ++ b).length = a.length + b.length := by
  cases a
  cases b
  exact List.length_append _ _

/-! ## Claim C4: the truncation law -/

/-- C4.  For every non-empty trimmed symbol `s`: when `s.length + 5 > 45`,
the `Public Name Tag` label is exactly 45 characters long and its final three
characters are the ellipsis `...`; otherwise the label is exactly
`<s> Pool`; and in all cases its length never exceeds 45. -/
theorem truncation_law (s : String) (_hne : s ≠ "") :
    (45 < s.length + 5 →
      (truncateString (s ++ " Pool") 45).length = 45 ∧
        (truncateString (s ++ " Pool") 45).data.drop 42 = "...".data)
    ∧ (s.length + 5 ≤ 45 → truncateString (s ++ " Pool") 45 = s ++ " Pool")
    ∧ (truncateString (s ++ " Pool") 45).length ≤ 45 := by
  have hlen : (s ++ " Pool").length = s.length + 5 := strLength_append s " Pool"
  by_cases hc : 45 < s.length + 5
  · have hif : truncateString (s ++ " Pool") 45
        = jsSubstring0 (s ++ " Pool") 42 ++ "..." := by
      unfold truncateString
      rw [hlen, if_pos hc]
    have htakelen : ((s ++ " Pool").data.take 42).length = 42 := by
      rw [List.length_take, Nat.min_eq_left]
      show 42 ≤ (s ++ " Pool").data.length
      calc 42 ≤ s.length + 5 := by omega
        _ = (s ++ " Pool").data.length := hlen.symm
    have hlen45 : (jsSubstring0 (s ++ " Pool") 42 ++ "...").length = 45 := by
      rw [strLength_append]
      show ((s ++ " Pool").data.take 42).length + 3 = 45
      rw [htakelen]
    refine ⟨fun _ => ⟨by rw [hif, hlen45], ?_⟩, fun hle => absurd hc (by omega), ?_⟩
    · rw [hif, strData_append]
      show (((s ++ " Pool").data.take 42) ++ "...".data).drop 42 = "...".data
      exact List.drop_left' htakelen
    · rw [hif, hlen45]
  · have hif : truncateString (s ++ " Pool") 45 = s ++ " Pool" := by
      unfold truncateString
      rw [hlen, if_neg hc]
    exact ⟨fun h => absurd h hc, fun _ => hif, by rw [hif, hlen]; omega⟩

/-- Witness for C4 at the 41-character symbol (truncating branch): the label
is 45 characters, ends in the ellipsis, and does not exceed 45. -/
theorem truncation_law_witness :
    (45 < (String.mk (List.replicate 41 'a')).length + 5 →
      (truncateString (String.mk (List.replicate 41 'a') ++ " Pool") 45).length = 45 ∧
        (truncateString (String.mk (List.replicate 41 'a') ++ " Pool") 45).data.drop 42
          = "...".data)
    ∧ ((String.mk (List.replicate 41 'a')).length + 5 ≤ 45 →
        truncateString (String.mk (List.replicate 41 'a') ++ " Pool") 45
          = String.mk (List.replicate 41 'a') ++ " Pool")
    ∧ (truncateString (String.mk (List.replicate 41 'a') ++ " Pool") 45).length ≤ 45 :=
  truncation_law (String.mk (List.replicate 41 'a')) (by decide)

/-! ## Pagination claims (C1, C2, C3) -/

/-- Boolean lexicographic strict order on character lists: the
orderable-string sense in which pool identifiers are compared. -/
def strLtB : List Char → List Char → Bool
  | [], [] => false
  | [], _ :: _ => true
  | _ :: _, [] => false
  | a :: as, b :: bs => if a < b then true else if a = b then strLtB as bs else false

/-- A pool record with no tokens, used to build concrete pages. -/
def mkPlainPool (i : String) : LiquidityPool :=
  { id := i, name := "pool", symbol := none, inputTokens := none, outputToken := none }

/-- A page sequence is good for the loop started at cursors
`(lastId, prevLastId)` when every page before the last has exactly 1000
records, the last page has fewer than 1000, and each non-final page's last
record id is non-empty and differs from the cursor used to fetch it and from
the preceding cursor. -/
def goodPagesB : List (List LiquidityPool) → String → String → Bool
  | [], _, _ => false
  | [page], _, _ => decide (page.length < 1000)
  | page :: q :: rest, lastId, prevLastId =>
    decide (page.length = 1000) &&
    !(lastRecordId page == "") && !(lastRecordId page == lastId) &&
    !(lastRecordId page == prevLastId) &&
    goodPagesB (q :: rest) (lastRecordId page) lastId

/-- On a good page sequence the loop returns the accumulator extended by the
concatenation of all pages in order. -/
lemma runPagination_goodPages :
    ∀ (pages : List (List LiquidityPool)) (lastId prevLastId : String)
      (acc : List LiquidityPool),
      goodPagesB pages lastId prevLastId = true →
      runPagination pages lastId prevLastId acc = .ok (acc ++ pages.flatten)
  | [], _, _, _, h => by simp [goodPagesB] at h
  | [page], lastId, prevLastId, acc, h => by
    have hlt : page.length < 1000 := by simpa [goodPagesB] using h
    rw [runPagination_cons_done _ _ _ _ _ (by omega)]
    simp
  | page :: q :: rest, lastId, prevLastId, acc, h => by
    simp only [goodPagesB, Bool.and_eq_true, Bool.not_eq_true',
      beq_eq_false_iff_ne, decide_eq_true_eq] at h
    obtain ⟨⟨⟨⟨hfull, hne⟩, hcur⟩, hprev⟩, hrec⟩ := h
    rw [runPagination_cons_continue _ _ _ _ _ hfull
        (not_or.mpr ⟨hne, not_or.mpr ⟨hcur, hprev⟩⟩),
      runPagination_goodPages (q :: rest) (lastRecordId page) lastId (acc ++ page) hrec]
    simp [List.append_assoc]

/-- C1 (amended).  For a sequence of pages in which every page before the
last has exactly 1000 records, the last has fewer than 1000, and every
non-final page's last record id is non-empty and distinct from the cursor
used to fetch it and from the preceding cursor, the loop terminates normally
and the accumulated record list is the concatenation of all pages in order. -/
theorem pagination_accumulates_concat (pages : List (List LiquidityPool))
    (h : goodPagesB pages zeroAddress "" = true) :
    runPagination pages zeroAddress "" [] = .ok pages.flatten := by
  rw [runPagination_goodPages pages zeroAddress "" [] h, List.nil_append]

set_option maxRecDepth 10000 in
/-- Witness for C1 at a two-page sequence (one full page, one short page). -/
theorem pagination_accumulates_concat_witness :
    runPagination [List.replicate 1000 (mkPlainPool "0xaa"), [mkPlainPool "0xbb"]]
        zeroAddress "" []
      = .ok ([List.replicate 1000 (mkPlainPool "0xaa"), [mkPlainPool "0xbb"]].flatten) :=
  pagination_accumulates_concat
    [List.replicate 1000 (mkPlainPool "0xaa"), [mkPlainPool "0xbb"]] (by decide)

/-- Counterexample to C1 as stated: a sequence whose first page has exactly
1000 records and whose last page has fewer than 1000, yet the loop aborts
with the stall error (the full page's last record id equals the cursor), so
the result is not the concatenation of the pages. -/
theorem pagination_accumulates_concat_counterexample :
    (List.replicate 1000 (mkPlainPool zeroAddress)).length = 1000
    ∧ ([] : List LiquidityPool).length < 1000
    ∧ runPagination [List.replicate 1000 (mkPlainPool zeroAddress), []]
        zeroAddress "" [] = .stall
    ∧ runPagination [List.replicate 1000 (mkPlainPool zeroAddress), []]
        zeroAddress "" []
        ≠ .ok ([List.replicate 1000 (mkPlainPool zeroAddress), []].flatten) := by
  have hstall : runPagination [List.replicate 1000 (mkPlainPool zeroAddress), []]
      zeroAddress "" [] = .stall :=
    runPagination_cons_stall _ _ _ _ _ (List.length_replicate 1000 _)
      (Or.inr (Or.inl (lastRecordId_replicate 1000 _ (by norm_num))))
  exact ⟨List.length_replicate 1000 _, by decide, hstall,
    by rw [hstall]; exact fun hcontra => PagingOutcome.noConfusion hcontra⟩

/-- C2 (amended).  After a full page of 1000 records the driver checks only
that the new cursor (the page's last record id) is non-empty and different
from both the current and the immediately preceding cursor: if the check
fails the operation aborts with the stall error, and otherwise pagination
continues with the new cursor — even when the new cursor is not a strict
increase over the old one. -/
theorem cursor_advance_check (page : List LiquidityPool)
    (rest : List (List LiquidityPool)) (lastId prevLastId : String)
    (acc : List LiquidityPool) (hfull : page.length = 1000) :
    ((lastRecordId page = "" ∨ lastRecordId page = lastId ∨
        lastRecordId page = prevLastId) →
      runPagination (page :: rest) lastId prevLastId acc = .stall)
    ∧ (¬ (lastRecordId page = "" ∨ lastRecordId page = lastId ∨
        lastRecordId page = prevLastId) →
      runPagination (page :: rest) lastId prevLastId acc
        = runPagination rest (lastRecordId page) lastId (acc ++ page)) :=
  ⟨fun h => runPagination_cons_stall page rest lastId prevLastId acc hfull h,
   fun h => runPagination_cons_continue page rest lastId prevLastId acc hfull h⟩

set_option maxRecDepth 10000 in
/-- Witness for C2 at a concrete full page. -/
theorem cursor_advance_check_witness :
    ((lastRecordId (List.replicate 1000 (mkPlainPool "0xcc")) = ""
        ∨ lastRecordId (List.replicate 1000 (mkPlainPool "0xcc")) = "0xaa"
        ∨ lastRecordId (List.replicate 1000 (mkPlainPool "0xcc")) = "") →
      runPagination [List.replicate 1000 (mkPlainPool "0xcc")] "0xaa" "" [] = .stall)
    ∧ (¬ (lastRecordId (List.replicate 1000 (mkPlainPool "0xcc")) = ""
        ∨ lastRecordId (List.replicate 1000 (mkPlainPool "0xcc")) = "0xaa"
        ∨ lastRecordId (List.replicate 1000 (mkPlainPool "0xcc")) = "") →
      runPagination [List.replicate 1000 (mkPlainPool "0xcc")] "0xaa" "" []
        = runPagination [] (lastRecordId (List.replicate 1000 (mkPlainPool "0xcc")))
            "0xaa" ([] ++ List.replicate 1000 (mkPlainPool "0xcc"))) :=
  cursor_advance_check (List.replicate 1000 (mkPlainPool "0xcc")) [] "0xaa" "" []
    (List.length_replicate 1000 _)

/-- Counterexample to C2 as stated: after the first full page the cursor is
`0xff`; the second full page's last record id `0x11` is strictly smaller in
the lexicographic string order (the cursor moves backwards), yet the driver
accepts it and the run completes normally instead of aborting. -/
theorem cursor_advance_check_counterexample :
    strLtB (lastRecordId (List.replicate 1000 (mkPlainPool "0x11"))).data
        (lastRecordId (List.replicate 1000 (mkPlainPool "0xff"))).data = true
    ∧ runPagination
        [List.replicate 1000 (mkPlainPool "0xff"),
          List.replicate 1000 (mkPlainPool "0x11"), []] zeroAddress "" []
      = .ok (List.replicate 1000 (mkPlainPool "0xff")
          ++ List.replicate 1000 (mkPlainPool "0x11")) := by
  constructor
  · rw [lastRecordId_replicate 1000 _ (by norm_num),
      lastRecordId_replicate 1000 _ (by norm_num)]
    decide
  · rw [runPagination_cons_continue _ _ _ _ _ (List.length_replicate 1000 _)
        (by rw [lastRecordId_replicate 1000 _ (by norm_num)]; decide),
      runPagination_cons_continue _ _ _ _ _ (List.length_replicate 1000 _)
        (by rw [lastRecordId_replicate 1000 _ (by norm_num),
            lastRecordId_replicate 1000 _ (by norm_num)]; decide),
      runPagination_cons_done _ _ _ _ _ (by decide),
      List.append_nil, List.nil_append]

/-- C3.  After a full page of 1000 records the driver validates that the
last record's id is non-empty and differs from both the current and the
immediately preceding cursor; on any failure it raises the pagination stall
error without consuming any further page (the result is `.stall` for every
continuation `rest`).  In particular a full page whose last record id equals
the prior cursor stalls rather than loops. -/
theorem stall_on_non_advancing_cursor (page : List LiquidityPool)
    (rest : List (List LiquidityPool)) (lastId prevLastId : String)
    (acc : List LiquidityPool) (hfull : page.length = 1000)
    (h : lastRecordId page = "" ∨ lastRecordId page = lastId ∨
      lastRecordId page = prevLastId) :
    runPagination (page :: rest) lastId prevLastId acc = .stall :=
  runPagination_cons_stall page rest lastId prevLastId acc hfull h

/-- Witness for C3: a full page whose last record id equals the prior cursor
stalls. -/
theorem stall_on_non_advancing_cursor_witness :
    runPagination [List.replicate 1000 (mkPlainPool "0xab"), [mkPlainPool "0xzz"]]
      "0xab" "" [] = .stall :=
  stall_on_non_advancing_cursor (List.replicate 1000 (mkPlainPool "0xab"))
    [[mkPlainPool "0xzz"]] "0xab" "" [] (List.length_replicate 1000 _)
    (Or.inr (Or.inl (lastRecordId_replicate 1000 _ (by norm_num))))

/-! ## Claim C5: uniqueness and first-occurrence-wins of the transformer -/

/-- The composed target address determines the token id (for a fixed chain). -/
lemma eip155_inj (c i j : String)
    (h : "eip155:" ++ c ++ ":" ++ i = "eip155:" ++ c ++ ":" ++ j) : i = j := by
  have hd := congrArg String.data h
  simp only [strData_append] at hd
  have hdata : i.data = j.data := by
    apply List.append_cancel_left hd
  cases i
  cases j
  cases hdata
  rfl

/-- Splitting the transformer over an append: the second part runs with the
`seen` set accumulated by the first. -/
lemma transformGo_append (c : String) (xs ys : List LiquidityPool) (seen : List String) :
    transformGo c (xs ++ ys) seen
      = transformGo c xs seen ++ transformGo c ys (seenAfter xs seen) := by
  induction xs generalizing seen with
  | nil => simp [transformGo, seenAfter]
  | cons p xs ih =>
    cases hout : p.outputToken with
    | none => simp [transformGo, seenAfter, hout, ih]
    | some lp =>
      by_cases hskip : lp.id = "" ∨ lp.id ∈ seen
      · simp [transformGo, seenAfter, hout, hskip, ih]
      · by_cases hsym : (lp.symbol.map jsTrim).getD "" = ""
        · simp [transformGo, seenAfter, hout, hskip, hsym, ih]
        · simp [transformGo, seenAfter, hout, hskip, hsym, ih]

/-- Unfolding: a record with no output token is skipped. -/
lemma transformGo_cons_none (c : String) (pool : LiquidityPool) (rest : List LiquidityPool)
    (seen : List String) (hout : pool.outputToken = none) :
    transformGo c (pool :: rest) seen = transformGo c rest seen := by
  simp [transformGo, hout]

/-- Unfolding: a record whose output-token id is empty or already seen is
skipped without touching the `seen` set. -/
lemma transformGo_cons_skipDup (c : String) (pool : LiquidityPool) (rest : List LiquidityPool)
    (seen : List String) (lp : TokenInfo) (hout : pool.outputToken = some lp)
    (hskip : lp.id = "" ∨ lp.id ∈ seen) :
    transformGo c (pool :: rest) seen = transformGo c rest seen := by
  simp [transformGo, hout, hskip]

/-- Unfolding: a fresh output-token id with a blank trimmed symbol is marked
seen but yields no tag. -/
lemma transformGo_cons_skipSym (c : String) (pool : LiquidityPool) (rest : List LiquidityPool)
    (seen : List String) (lp : TokenInfo) (hout : pool.outputToken = some lp)
    (hskip : ¬ (lp.id = "" ∨ lp.id ∈ seen))
    (hsym : (lp.symbol.map jsTrim).getD "" = "") :
    transformGo c (pool :: rest) seen = transformGo c rest (lp.id :: seen) := by
  simp [transformGo, hout, hskip, hsym]

/-- Unfolding: a fresh output-token id with a non-blank trimmed symbol emits
its tag. -/
lemma transformGo_cons_emit (c : String) (pool : LiquidityPool) (rest : List LiquidityPool)
    (seen : List String) (lp : TokenInfo) (hout : pool.outputToken = some lp)
    (hskip : ¬ (lp.id = "" ∨ lp.id ∈ seen))
    (hsym : (lp.symbol.map jsTrim).getD "" ≠ "") :
    transformGo c (pool :: rest) seen
      = mkTag c lp ((lp.symbol.map jsTrim).getD "") ((lp.name.map jsTrim).getD "")
          :: transformGo c rest (lp.id :: seen) := by
  simp [transformGo, hout, hskip, hsym]

/-- Invariant of the transformer loop: the emitted addresses are pairwise
distinct, and every emitted address is the eip155 composition of a token id
not yet in the `seen` set. -/
lemma transformGo_addr (c : String) :
    ∀ (pools : List LiquidityPool) (seen : List String),
      ((transformGo c pools seen).map ContractTag.contractAddress).Nodup
      ∧ ∀ t ∈ transformGo c pools seen,
          ∃ i, i ∉ seen ∧ t.contractAddress = "eip155:" ++ c ++ ":" ++ i
  | [], seen => by simp [transformGo]
  | pool :: rest, seen => by
    cases hout : pool.outputToken with
    | none =>
      simpa [transformGo, hout] using transformGo_addr c rest seen
    | some lp =>
      by_cases hskip : lp.id = "" ∨ lp.id ∈ seen
      · simpa [transformGo, hout, hskip] using transformGo_addr c rest seen
      · by_cases hsym : (lp.symbol.map jsTrim).getD "" = ""
        · have ih := transformGo_addr c rest (lp.id :: seen)
          refine ⟨by simpa [transformGo, hout, hskip, hsym] using ih.1, ?_⟩
          intro t ht
          simp only [transformGo, hout, hskip, hsym] at ht
          obtain ⟨i, hi, haddr⟩ := ih.2 t (by simpa using ht)
          exact ⟨i, fun hmem => hi (List.mem_cons_of_mem _ hmem), haddr⟩
        · have ih := transformGo_addr c rest (lp.id :: seen)
          have hnotin : ¬ lp.id ∈ seen := fun hmem => hskip (Or.inr hmem)
          have hgo := transformGo_cons_emit c pool rest seen lp hout hskip hsym
          constructor
          · rw [hgo]
            simp only [List.map_cons, List.nodup_cons]
            refine ⟨?_, ih.1⟩
            intro hmem
            rw [List.mem_map] at hmem
            obtain ⟨t, ht, haddr⟩ := hmem
            obtain ⟨i, hi, haddr'⟩ := ih.2 t ht
            have heq : i = lp.id := eip155_inj c i lp.id (by rw [← haddr', haddr]; rfl)
            exact hi (heq ▸ List.mem_cons_self _ _)
          · intro t ht
            rw [hgo] at ht
            rcases List.mem_cons.mp ht with rfl | ht
            · exact ⟨lp.id, hnotin, rfl⟩
            · obtain ⟨i, hi, haddr⟩ := ih.2 t ht
              exact ⟨i, fun hmem => hi (List.mem_cons_of_mem _ hmem), haddr⟩

/-- C5.  Within one invocation the transformer emits at most one tag per
distinct output-token id (pairwise distinct contract addresses, and equal
ids give equal addresses), and a record whose output-token id was already
seen while processing the preceding records contributes nothing, wherever it
occurs: the tag (if any) for an id comes from the first occurrence and later
duplicates are dropped. -/
theorem transform_dedup_first (chainId : String) (pools : List LiquidityPool) :
    ((transformPoolsToTags chainId pools).map ContractTag.contractAddress).Nodup
    ∧ ∀ (ys : List LiquidityPool) (p : LiquidityPool) (lp : TokenInfo),
        p.outputToken = some lp → lp.id ∈ seenAfter pools [] →
        transformPoolsToTags chainId (pools ++ p :: ys)
          = transformPoolsToTags chainId (pools ++ ys) := by
  constructor
  · exact (transformGo_addr chainId pools []).1
  · intro ys p lp hout hmem
    unfold transformPoolsToTags
    rw [transformGo_append, transformGo_append]
    congr 1
    simp [transformGo, hout, hmem]

/-- A record carrying an output token, duplicated in the C5 witness. -/
def dupPool : LiquidityPool :=
  { id := "0xp1", name := "P", symbol := none, inputTokens := none,
    outputToken := some { id := "0xlp", symbol := some "SLP", name := some "LP" } }

/-- Witness for C5: processing the same record twice yields the same tags as
processing it once — exactly one tag — with pairwise distinct addresses. -/
theorem transform_dedup_first_witness :
    ((transformPoolsToTags "137" [dupPool, dupPool]).map ContractTag.contractAddress).Nodup
    ∧ transformPoolsToTags "137" ([dupPool] ++ dupPool :: [])
        = transformPoolsToTags "137" ([dupPool] ++ [])
    ∧ (transformPoolsToTags "137" [dupPool, dupPool]).length = 1 :=
  ⟨(transform_dedup_first "137" [dupPool, dupPool]).1,
   (transform_dedup_first "137" [dupPool]).2 [] dupPool
     { id := "0xlp", symbol := some "SLP", name := some "LP" } rfl (by decide),
   rfl⟩

/-! ## Claim C7: missing data field means an empty page -/

/-- C7.  A well-formed pools response without application-level errors whose
`data` field is absent, or whose `data` lacks the `liquidityPools` field,
yields the empty page rather than an error. -/
theorem empty_page_on_missing_data (r : GraphQLResponseShape)
    (herr : r.errors = none)
    (hdata : r.dataField = none ∨ ∃ d, r.dataField = some d ∧ d.liquidityPools = none) :
    fetchPoolsResult r = .ok [] := by
  unfold fetchPoolsResult
  rw [herr]
  rcases hdata with h | ⟨d, hd, hlp⟩
  · rw [h]
    rfl
  · rw [hd]
    simp [Option.bind, hlp]

/-- Witness for C7 at the response with no `data` field and no `errors`. -/
theorem empty_page_on_missing_data_witness :
    fetchPoolsResult { dataField := none, errors := none } = .ok [] :=
  empty_page_on_missing_data { dataField := none, errors := none } rfl (Or.inl rfl)

/-! ## Entry-point evaluation lemmas -/

/-- With a digits-only (after trimming) supported chain id and a blank
credential, `returnTags` fails with the missing-key validation error. -/
lemma returnTagsModel_missingKey (chainId apiKey : String) (block : Nat)
    (pages : List (List LiquidityPool))
    (hd : digitStringB (jsTrim chainId).data = true)
    (hmem : digitsToNat (jsTrim chainId).data ∈ supportedChains)
    (hkey : (jsTrim apiKey).length = 0) :
    returnTagsModel chainId apiKey block pages
      = .error (.validationError
          "Missing API key. A The Graph gateway API key is required.") := by
  simp only [returnTagsModel]
  rw [if_neg (by simp [hd]), if_neg (not_not_intro hmem), if_pos hkey]

/-- With a digits-only (after trimming) supported chain id, a non-blank
credential and a well-configured endpoint, `returnTags` reduces to the
pagination loop followed by the transformer keyed by the canonical decimal
chain id. -/
lemma returnTagsModel_valid (chainId apiKey : String) (block : Nat)
    (pages : List (List LiquidityPool))
    (hd : digitStringB (jsTrim chainId).data = true)
    (hmem : digitsToNat (jsTrim chainId).data ∈ supportedChains)
    (hkey : ¬ (jsTrim apiKey).length = 0)
    (hurl : urlConfigOk (Nat.repr (digitsToNat (jsTrim chainId).data)) apiKey = true) :
    returnTagsModel chainId apiKey block pages
      = match runPagination pages zeroAddress "" [] with
        | .outOfPages => .error .fetchUnavailable
        | .stall => .error (.paginationStallError
            "Pagination cursor (pools) did not advance; aborting.")
        | .ok allPools =>
          .ok (transformPoolsToTags (Nat.repr (digitsToNat (jsTrim chainId).data))
            allPools) := by
  simp only [returnTagsModel]
  rw [if_neg (by simp [hd]), if_neg (not_not_intro hmem), if_neg hkey]
  rw [urlConfigOk] at hurl
  cases hres : resolvedSubgraphUrl (Nat.repr (digitsToNat (jsTrim chainId).data)) apiKey with
  | none =>
    rw [hres] at hurl
    exact absurd hurl (by simp)
  | some url =>
    rw [hres] at hurl
    simp only [Bool.and_eq_true, Bool.not_eq_true', beq_eq_false_iff_ne] at hurl
    change (if url = "" ∨ containsStr url "PLACEHOLDER" = true then _ else _) = _
    rw [if_neg (by
      intro hor
      rcases hor with h | h
      · exact hurl.1 h
      · rw [hurl.2] at h
        exact Bool.noConfusion h)]

/-! ## Claim C6: validation of the chain id -/

/-- C6 (amended).  For every chain identifier whose trimmed form is not a
non-empty string of decimal digits, or whose decimal value is outside the
supported set `{56, 137, 250, 1285}`, `returnTags` fails with the validation
error echoing the caller-supplied chain id verbatim — for every credential
and every oracle answer, so no network call can influence the outcome. -/
theorem validation_rejects (chainId apiKey : String) (block : Nat)
    (pages : List (List LiquidityPool))
    (h : digitStringB (jsTrim chainId).data = false
      ∨ ¬ digitsToNat (jsTrim chainId).data ∈ supportedChains) :
    returnTagsModel chainId apiKey block pages
      = .error (.validationError (unsupportedChainMsg chainId)) := by
  by_cases hd : digitStringB (jsTrim chainId).data = false
  · simp only [returnTagsModel]
    rw [if_pos hd]
  · rcases h with h | h
    · exact absurd h hd
    · simp only [returnTagsModel]
      rw [if_neg hd, if_pos h]

/-- Witness for C6 at the chain id `9999` (digits-only but unsupported),
matching the specification's own example. -/
theorem validation_rejects_witness :
    returnTagsModel "9999" "k" 0 []
      = .error (.validationError (unsupportedChainMsg "9999")) :=
  validation_rejects "9999" "k" 0 [] (Or.inr (by decide))

/-- Counterexample to C6 as stated: the chain id `0137` is not a member of
the supported set `{"56", "137", "250", "1285"}` (and likewise `" 137 "` is
not digits-only), yet `returnTags` accepts it and completes successfully
instead of failing with the validation error. -/
theorem validation_rejects_counterexample :
    ("0137" ∉ ["56", "137", "250", "1285"])
    ∧ returnTagsModel "0137" "k" 0 [[]] = .ok []
    ∧ returnTagsModel " 137 " "k" 0 [[]] = .ok []
    ∧ ¬ (" 137 ".data.all Char.isDigit = true) :=
  ⟨by decide, rfl, rfl, by decide⟩

/-! ## Claim C8: the end-to-end example -/

/-- Record A of the end-to-end example: output token
`{id: 0xaaa, symbol: SLP, name: Sushi LP Token}`. -/
def exampleRecordA : LiquidityPool :=
  { id := "0xa1", name := "A", symbol := none, inputTokens := none,
    outputToken := some { id := "0xaaa", symbol := some "SLP", name := some "Sushi LP Token" } }

/-- Record B of the end-to-end example: no output token. -/
def exampleRecordB : LiquidityPool :=
  { id := "0xa2", name := "B", symbol := none, inputTokens := none,
    outputToken := none }

/-- The single expected tag of the end-to-end example. -/
def exampleExpectedTag : ContractTag :=
  { contractAddress := "eip155:137:0xaaa"
    publicNameTag := "SLP Pool"
    projectName := "Sushi"
    uiWebsiteLink := "https://www.sushi.com/"
    publicNote := "Sushi" ++ apostrophe ++ "s SLP (Sushi LP Token) pool contract." }

/-- C8.  For chain id `137` and a single page holding record A (output token
`0xaaa`/`SLP`/`Sushi LP Token`) and record B (no output token), `returnTags`
returns exactly the one expected tag — for any non-blank credential with a
well-configured endpoint and any pinned block. -/
theorem end_to_end_example (apiKey : String) (block : Nat)
    (hkey : ¬ (jsTrim apiKey).length = 0)
    (hurl : urlConfigOk "137" apiKey = true) :
    returnTagsModel "137" apiKey block [[exampleRecordA, exampleRecordB]]
      = .ok [exampleExpectedTag] := by
  rw [returnTagsModel_valid "137" apiKey block [[exampleRecordA, exampleRecordB]]
    (by decide) (by decide) hkey hurl]
  rfl

/-- Witness for C8 at the credential `k` and block `0`. -/
theorem end_to_end_example_witness :
    returnTagsModel "137" "k" 0 [[exampleRecordA, exampleRecordB]]
      = .ok [exampleExpectedTag] :=
  end_to_end_example "k" 0 (by decide) (by decide)

/-! ## Claim C10: normalization of the chain id -/

/-- C10.  `returnTags` normalizes the chain id by trimming and converting
through a number: any two spellings with the same digits-only trimmed value
`n` of a supported chain behave identically (so non-canonical forms such as
`"0137"` or `" 137 "` are accepted), and every emitted tag's target address
is composed from the canonical decimal form `Nat.repr n`, regardless of the
spelling supplied by the caller. -/
theorem chainid_normalization (c1 c2 apiKey : String) (block : Nat)
    (pages : List (List LiquidityPool)) (n : Nat)
    (h1 : digitStringB (jsTrim c1).data = true)
    (h2 : digitStringB (jsTrim c2).data = true)
    (hv1 : digitsToNat (jsTrim c1).data = n)
    (hv2 : digitsToNat (jsTrim c2).data = n)
    (hmem : n ∈ supportedChains)
    (hurl : urlConfigOk (Nat.repr n) apiKey = true) :
    returnTagsModel c1 apiKey block pages = returnTagsModel c2 apiKey block pages
    ∧ ∀ tags, returnTagsModel c1 apiKey block pages = Except.ok tags →
        ∀ t ∈ tags, ∃ i, t.contractAddress = "eip155:" ++ Nat.repr n ++ ":" ++ i := by
  by_cases hkey : (jsTrim apiKey).length = 0
  · have e1 := returnTagsModel_missingKey c1 apiKey block pages h1 (hv1 ▸ hmem) hkey
    have e2 := returnTagsModel_missingKey c2 apiKey block pages h2 (hv2 ▸ hmem) hkey
    refine ⟨e1.trans e2.symm, ?_⟩
    intro tags htags
    rw [e1] at htags
    exact Except.noConfusion htags
  · have e1 := returnTagsModel_valid c1 apiKey block pages h1 (hv1 ▸ hmem) hkey
      (by rw [hv1]; exact hurl)
    have e2 := returnTagsModel_valid c2 apiKey block pages h2 (hv2 ▸ hmem) hkey
      (by rw [hv2]; exact hurl)
    rw [hv1] at e1
    rw [hv2] at e2
    refine ⟨e1.trans e2.symm, ?_⟩
    intro tags htags
    rw [e1] at htags
    cases hrp : runPagination pages zeroAddress "" [] with
    | outOfPages =>
      rw [hrp] at htags
      exact Except.noConfusion htags
    | stall =>
      rw [hrp] at htags
      exact Except.noConfusion htags
    | ok pools =>
      rw [hrp] at htags
      have hok : (Except.ok (transformPoolsToTags (Nat.repr n) pools)
          : Except TagErr (List ContractTag)) = Except.ok tags := htags
      obtain rfl := Except.ok.inj hok
      intro t ht
      obtain ⟨i, _, haddr⟩ := (transformGo_addr (Nat.repr n) pools []).2 t ht
      exact ⟨i, haddr⟩

/-- Witness for C10: the spellings `" 0137 "` and `"137"` of chain 137 agree
end to end, on a run producing one tag with the canonically composed
address. -/
theorem chainid_normalization_witness :
    (returnTagsModel " 0137 " "k" 0 [[exampleRecordA, exampleRecordB]]
        = returnTagsModel "137" "k" 0 [[exampleRecordA, exampleRecordB]])
    ∧ ∀ tags, returnTagsModel " 0137 " "k" 0 [[exampleRecordA, exampleRecordB]]
          = Except.ok tags →
        ∀ t ∈ tags, ∃ i, t.contractAddress = "eip155:" ++ Nat.repr 137 ++ ":" ++ i :=
  chainid_normalization " 0137 " "137" "k" 0 [[exampleRecordA, exampleRecordB]] 137
    (by decide) (by decide) (by decide) (by decide) (by decide) (by decide)

/-! ## Claim C9: the zero-address sentinel is an exclusive lower bound -/

lemma strLtB_irrefl (l : List Char) : strLtB l l = false := by
  induction l with
  | nil => rfl
  | cons a as ih => simp [strLtB, ih]

lemma strLtB_trans : ∀ (a b c : List Char),
    strLtB a b = true → strLtB b c = true → strLtB a c = true
  | [], [], _, hab, _ => by simp [strLtB] at hab
  | [], _ :: _, [], _, hbc => by simp [strLtB] at hbc
  | [], _ :: _, _ :: _, _, _ => by simp [strLtB]
  | _ :: _, [], _, hab, _ => by simp [strLtB] at hab
  | _ :: _, _ :: _, [], _, hbc => by simp [strLtB] at hbc
  | a :: as, b :: bs, c :: cs, hab, hbc => by
    simp only [strLtB] at hab hbc ⊢
    by_cases h1 : a < b
    · by_cases h2 : b < c
      · rw [if_pos (lt_trans h1 h2)]
      · rw [if_neg h2] at hbc
        by_cases h3 : b = c
        · subst h3
          rw [if_pos h1]
        · rw [if_neg h3] at hbc
          exact absurd hbc (by simp)
    · rw [if_neg h1] at hab
      by_cases h4 : a = b
      · subst h4
        rw [if_pos rfl] at hab
        by_cases h2 : a < c
        · rw [if_pos h2]
        · rw [if_neg h2] at hbc
          by_cases h5 : a = c
          · subst h5
            rw [if_pos rfl] at hbc
            rw [if_neg h2, if_pos rfl]
            exact strLtB_trans as bs cs hab hbc
          · rw [if_neg h5] at hbc
            exact absurd hbc (by simp)
      · rw [if_neg h4] at hab
        exact absurd hab (by simp)

/-- The last record id of a non-empty page is the id of one of its records. -/
lemma lastRecordId_mem (page : List LiquidityPool) (h : page ≠ []) :
    ∃ p ∈ page, lastRecordId page = p.id := by
  unfold lastRecordId
  rw [List.getLast?_eq_getLast page h]
  exact ⟨page.getLast h, List.getLast_mem h, rfl⟩

/-- A page sequence is honest for a run when every record of each page has an
id strictly greater (lexicographically) than the cursor the loop sends for
that page — the semantics the `GET_POOLS_QUERY` declares through
`where: id_gt, orderBy: id, orderDirection: asc`. -/
def honestPagesB : String → List (List LiquidityPool) → Bool
  | _, [] => true
  | lastId, page :: rest =>
    page.all (fun p => strLtB lastId.data p.id.data) && honestPagesB (lastRecordId page) rest

/-- Invariant: running against honest pages from a cursor at or above the
zero address only ever accumulates records with ids strictly above the zero
address. -/
lemma runPagination_honest :
    ∀ (pages : List (List LiquidityPool)) (lastId prevLastId : String)
      (acc pools : List LiquidityPool),
      honestPagesB lastId pages = true →
      (lastId = zeroAddress ∨ strLtB zeroAddress.data lastId.data = true) →
      (∀ p ∈ acc, strLtB zeroAddress.data p.id.data = true) →
      runPagination pages lastId prevLastId acc = .ok pools →
      ∀ p ∈ pools, strLtB zeroAddress.data p.id.data = true
  | [], _, _, _, _, _, _, _, hrun => by simp [runPagination] at hrun
  | page :: rest, lastId, prevLastId, acc, pools, hhon, hzero, hacc, hrun => by
    simp only [honestPagesB, Bool.and_eq_true, List.all_eq_true, decide_eq_true_eq] at hhon
    obtain ⟨hpage, hrest⟩ := hhon
    have hpagezero : ∀ p ∈ page, strLtB zeroAddress.data p.id.data = true := by
      intro p hp
      rcases hzero with rfl | hz
      · exact hpage p hp
      · exact strLtB_trans _ _ _ hz (hpage p hp)
    have haccpage : ∀ p ∈ acc ++ page, strLtB zeroAddress.data p.id.data = true := by
      intro p hp
      rcases List.mem_append.mp hp with h | h
      · exact hacc p h
      · exact hpagezero p h
    by_cases hfull : page.length = 1000
    · by_cases hadv : lastRecordId page = "" ∨ lastRecordId page = lastId ∨
          lastRecordId page = prevLastId
      · rw [runPagination_cons_stall _ _ _ _ _ hfull hadv] at hrun
        exact absurd hrun (by simp)
      · rw [runPagination_cons_continue _ _ _ _ _ hfull hadv] at hrun
        have hpne : page ≠ [] := by
          intro h
          rw [h] at hfull
          simp at hfull
        obtain ⟨q, hq, hqid⟩ := lastRecordId_mem page hpne
        exact runPagination_honest rest (lastRecordId page) lastId (acc ++ page) pools
          hrest (Or.inr (by rw [hqid]; exact hpagezero q hq)) haccpage hrun
    · rw [runPagination_cons_done _ _ _ _ _ hfull] at hrun
      cases hrun
      exact haccpage

/-- C9.  The loop starts from the all-zero sentinel cursor, and the pools
query uses the cursor as a strict (`id_gt`, exclusive) lower bound; hence on
any run over pages honoring that bound, every accumulated record's id is
strictly above — in particular never equal to — the all-zero address, and
the output tags are exactly those of the records with the all-zero address
filtered away (no tag stems from such a pool). -/
theorem zero_address_excluded (pages : List (List LiquidityPool))
    (pools : List LiquidityPool)
    (hhon : honestPagesB zeroAddress pages = true)
    (hrun : runPagination pages zeroAddress "" [] = .ok pools) :
    (∀ p ∈ pools, p.id ≠ zeroAddress)
    ∧ ∀ c, transformPoolsToTags c pools
        = transformPoolsToTags c (pools.filter (fun p => p.id != zeroAddress)) := by
  have hlt : ∀ p ∈ pools, strLtB zeroAddress.data p.id.data = true :=
    runPagination_honest pages zeroAddress "" [] pools hhon (Or.inl rfl)
      (by intro p hp; simp at hp) hrun
  have hne : ∀ p ∈ pools, p.id ≠ zeroAddress := by
    intro p hp heq
    have hthis := hlt p hp
    rw [heq, strLtB_irrefl] at hthis
    exact Bool.noConfusion hthis
  refine ⟨hne, fun c => ?_⟩
  have hfilter : pools.filter (fun p => p.id != zeroAddress) = pools :=
    List.filter_eq_self.mpr (fun p hp => by simp [hne p hp])
  rw [hfilter]

/-- Witness for C9 at a one-page honest run. -/
theorem zero_address_excluded_witness :
    (∀ p ∈ [mkPlainPool "0xaaa"], p.id ≠ zeroAddress)
    ∧ ∀ c, transformPoolsToTags c [mkPlainPool "0xaaa"]
        = transformPoolsToTags c
            ([mkPlainPool "0xaaa"].filter (fun p => p.id != zeroAddress)) :=
  zero_address_excluded [[mkPlainPool "0xaaa"]] [mkPlainPool "0xaaa"]
    (by decide) rfl

end SushiV2
